import Mathlib

/-!
Verification of the stream-resolution core of the ytbnew repository.

The development shallowly embeds, from the Python sources:
  * `app/utils/retry.py`          — `retry_with_backoff`
  * `app/services/ytdlp_service.py` — `_sync_fetch_stream_url`
  * `app/services/cache_service.py` — Redis-backed cache and lock service
  * `app/services/stream_resolver.py` — `get_stream_url`, `batch_get_streams`
  * `app/services/channel_validator.py` — `validate_channel`,
    `validate_channels_async`

External effects (the Redis store, the extraction tool, wall-clock time,
concurrent writers) are modelled as explicit state and oracles; machine
behaviour such as logging and metrics recording is pure side effect in the
source and is omitted.
-/

namespace Ytb

/-! ## Retry policy (`app/utils/retry.py`, `retry_with_backoff`)

The wrapped operation is modelled as an oracle from the attempt index to
that attempt's outcome: each retry in the source is a fresh, independent
invocation of `func`.  The sleeps and log lines between attempts carry no
data and are omitted. -/

/-- Core loop of `retry_with_backoff`: `remaining` counts the attempts that
are still allowed after the current one.  With `remaining = 0` the current
attempt is the last (`attempt == max_retries` in the source) and its
exception is re-raised unchanged (`raise` with no argument). -/
def retryAux (op : Nat → Except ε α) (attempt : Nat) : Nat → Except ε α
  | 0 => op attempt
  | r + 1 =>
    match op attempt with
    | .ok v => .ok v
    | .error _ => retryAux op (attempt + 1) r

/-- The `retry_with_backoff(func, *args, max_retries=...)` entry point:
attempt indices run from 0 to `max_retries` inclusive, exactly the
`for attempt in range(max_retries + 1)` loop of the source. -/
def retry_with_backoff (op : Nat → Except ε α) (max_retries : Nat) : Except ε α :=
  retryAux op 0 max_retries

/-- Number of times `retryAux` invokes the wrapped operation. -/
def retryCallsAux (op : Nat → Except ε α) (attempt : Nat) : Nat → Nat
  | 0 => 1
  | r + 1 =>
    match op attempt with
    | .ok _ => 1
    | .error _ => 1 + retryCallsAux op (attempt + 1) r

/-- Number of times `retry_with_backoff op max_retries` invokes `op`. -/
def retryCalls (op : Nat → Except ε α) (max_retries : Nat) : Nat :=
  retryCallsAux op 0 max_retries

theorem retryCallsAux_le (op : Nat → Except ε α) :
    ∀ r a, retryCallsAux op a r ≤ r + 1 := by
  intro r
  induction r with
  | zero => intro a; simp [retryCallsAux]
  | succ n ih =>
    intro a
    simp only [retryCallsAux]
    cases hop : op a with
    | ok v => simp
    | error e =>
      simp only []
      have := ih (a + 1)
      omega

theorem retryAux_all_fail (op : Nat → Except ε α)
    (h : ∀ i, (op i).isOk = false) :
    ∀ r a, retryAux op a r = op (a + r) := by
  intro r
  induction r with
  | zero => intro a; simp [retryAux]
  | succ n ih =>
    intro a
    simp only [retryAux]
    have hfail := h a
    cases hop : op a with
    | ok v => rw [hop] at hfail; simp [Except.isOk, Except.toBool] at hfail
    | error e =>
      simp only []
      have heq : a + 1 + n = a + (n + 1) := by omega
      rw [ih (a + 1), heq]

/-- C4: for every wrapped operation and `max_retries = N`,
`retry_with_backoff` invokes the operation at most `N + 1` times in total,
and when every attempt fails the final outcome is exactly the outcome of the
last attempt (index `N`) — the original error object, not a synthetic
wrapper. -/
theorem retry_call_bound_and_last_error (op : Nat → Except ε α) (N : Nat)
    (h : ∀ i, (op i).isOk = false) :
    retryCalls op N ≤ N + 1 ∧ retry_with_backoff op N = op N := by
  refine ⟨retryCallsAux_le op N 0, ?_⟩
  have := retryAux_all_fail op h N 0
  simpa [retry_with_backoff] using this

/-- Witness for C4 at a concrete always-failing operation with
`max_retries = 2`: at most 3 calls, and the surfaced error is the error of
attempt 2. -/
theorem retry_call_bound_and_last_error_witness :
    retryCalls (fun i => (Except.error i : Except Nat Nat)) 2 ≤ 3 ∧
      retry_with_backoff (fun i => (Except.error i : Except Nat Nat)) 2 =
        Except.error 2 :=
  retry_call_bound_and_last_error (fun i => Except.error i) 2 (fun _ => rfl)

/-! ## Stream extraction (`app/services/ytdlp_service.py`,
`_sync_fetch_stream_url`)

The external tool run is modelled by its observable outcome: whether the
subprocess timed out, its exit code, and the parsed JSON object of its
stdout (`none` when stdout is not valid JSON).  Python truthiness matters in
`info.get('url') or info.get('formats', [{}])[0].get('url')`: a missing
field and an empty string are both falsy. -/

/-- The fields of the tool's JSON output that `_sync_fetch_stream_url`
reads: the optional top-level `url`, the optional `formats` list (from each
entry only its optional `url` is read), and the optional `format` name used
for `quality`. -/
structure ToolInfo where
  url : Option String
  formats : Option (List (Option String))
  formatName : Option String
deriving DecidableEq, Repr

/-- Observable outcome of the `subprocess.run` invocation of the tool. -/
structure ToolRun where
  timedOut : Bool
  returncode : Int
  parsed : Option ToolInfo
deriving DecidableEq, Repr

/-- The exceptions `_sync_fetch_stream_url` can raise, by source site:
subprocess timeout, non-zero exit, JSON decode failure, indexing an empty
`formats` list, and a missing/empty stream URL. -/
inductive FetchErr
  | timeoutErr
  | toolError
  | parseError
  | indexError
  | noStream
deriving DecidableEq, Repr

/-- The stream record built on successful extraction.  Timestamps are
seconds since an arbitrary epoch; the ISO string round-trip of the source is
assumed faithful. -/
structure StreamData where
  url : String
  quality : String
  format : String
  expires_at : Nat
  protocol : String
  channel_url : String
  fetched_at : Nat
deriving DecidableEq, Repr

/-- Python truthiness of an optional string: `None` and `""` are falsy. -/
def pyStr (o : Option String) : Option String :=
  match o with
  | none => none
  | some s => if s = "" then none else some s

/-- Whether `pat` occurs at the head of the second list. -/
def headMatch : List Char → List Char → Bool
  | [], _ => true
  | _ :: _, [] => false
  | a :: as, b :: bs => a == b && headMatch as bs

/-- Whether `pat` occurs anywhere in the second list. -/
def subMatch (pat : List Char) : List Char → Bool
  | [] => headMatch pat []
  | c :: rest => headMatch pat (c :: rest) || subMatch pat rest

/-- Substring containment, the `in` test on Python strings. -/
def containsSub (s pat : String) : Bool :=
  subMatch pat.toList s.toList

/-- The expression `info.get('url') or info.get('formats', [{}])[0].get('url')`:
when the top-level `url` is falsy, a present `formats` list is indexed at 0
(raising `IndexError` when it is empty; a missing list defaults to `[{}]`
whose first entry has no `url`). -/
def streamUrlOf (info : ToolInfo) : Except FetchErr (Option String) :=
  match pyStr info.url with
  | some u => .ok (some u)
  | none =>
    match info.formats with
    | none => .ok none
    | some [] => .error .indexError
    | some (f :: _) => .ok (pyStr f)

/-- One hour in seconds: the `timedelta(hours=1)` the source adds to
`datetime.utcnow()` for `expires_at`. -/
def oneHour : Nat := 3600

/-- The body of `_sync_fetch_stream_url`, given the tool run's outcome and
the current time `now`: checks the timeout, the exit code, JSON parsing,
extracts the stream URL, and builds the result record. -/
def sync_fetch_stream_url (run : ToolRun) (now : Nat) (channel_url : String) :
    Except FetchErr StreamData :=
  if run.timedOut then .error .timeoutErr
  else if run.returncode ≠ 0 then .error .toolError
  else
    match run.parsed with
    | none => .error .parseError
    | some info =>
      match streamUrlOf info with
      | .error e => .error e
      | .ok none => .error .noStream
      | .ok (some u) =>
        .ok { url := u
              quality := info.formatName.getD "unknown"
              format := if containsSub u ".m3u8" then "hls" else "dash"
              expires_at := now + oneHour
              protocol := if headMatch "https".toList u.toList then "https" else "http"
              channel_url := channel_url
              fetched_at := now }

theorem pyStr_ne_empty (o : Option String) (u : String) (h : pyStr o = some u) :
    u ≠ "" := by
  unfold pyStr at h
  match o with
  | none => simp at h
  | some s =>
    by_cases hs : s = ""
    · simp [hs] at h
    · simp [hs] at h; rw [← h]; exact hs

theorem streamUrlOf_ne_empty (info : ToolInfo) (u : String)
    (h : streamUrlOf info = .ok (some u)) : u ≠ "" := by
  unfold streamUrlOf at h
  cases hp : pyStr info.url with
  | some v =>
    rw [hp] at h
    simp at h
    rw [← h]
    exact pyStr_ne_empty _ _ hp
  | none =>
    rw [hp] at h
    cases hf : info.formats with
    | none => rw [hf] at h; simp at h
    | some l =>
      rw [hf] at h
      cases l with
      | nil => simp at h
      | cons f _ =>
        simp at h
        exact pyStr_ne_empty f u h

/-- C8: every successful extraction yields a record whose URL is non-empty
and comes from the tool's structured output, whose `format` is `hls` exactly
when the URL contains `.m3u8` and is `dash` otherwise, and whose
`expires_at` is the current time plus exactly one hour, independent of the
tool's output. -/
theorem extraction_record_shape (run : ToolRun) (now : Nat) (cu : String)
    (d : StreamData) (h : sync_fetch_stream_url run now cu = .ok d) :
    d.url ≠ "" ∧
    (∃ info, run.parsed = some info ∧ streamUrlOf info = .ok (some d.url)) ∧
    (d.format = "hls" ↔ containsSub d.url ".m3u8" = true) ∧
    (d.format = "hls" ∨ d.format = "dash") ∧
    d.expires_at = now + oneHour := by
  unfold sync_fetch_stream_url at h
  by_cases ht : run.timedOut = true
  · simp [ht] at h
  · by_cases hr : run.returncode = 0
    · simp [ht, hr] at h
      split at h
      · simp at h
      · rename_i info hp
        split at h
        · simp at h
        · simp at h
        · rename_i u hu
          simp at h
          subst h
          refine ⟨streamUrlOf_ne_empty info u hu, ⟨info, hp, hu⟩, ?_, ?_, rfl⟩
          · by_cases hc : containsSub u ".m3u8" = true <;> simp [hc]
          · by_cases hc : containsSub u ".m3u8" = true <;> simp [hc]
    · simp [ht, hr] at h

/-- Concrete tool run used to witness C8. -/
def sampleRun : ToolRun :=
  ⟨false, 0, some ⟨some "https://x/stream.m3u8", none, some "best"⟩⟩

/-- Concrete record produced by `sync_fetch_stream_url` on `sampleRun` at
time 100. -/
def sampleRecord : StreamData :=
  ⟨"https://x/stream.m3u8", "best", "hls", 3700, "https", "https://yt/c", 100⟩

/-- Witness for C8 at `sampleRun`. -/
theorem extraction_record_shape_witness :
    sampleRecord.url ≠ "" ∧
    (∃ info, sampleRun.parsed = some info ∧
        streamUrlOf info = .ok (some sampleRecord.url)) ∧
    (sampleRecord.format = "hls" ↔ containsSub sampleRecord.url ".m3u8" = true) ∧
    (sampleRecord.format = "hls" ∨ sampleRecord.format = "dash") ∧
    sampleRecord.expires_at = 100 + oneHour :=
  extraction_record_shape sampleRun 100 "https://yt/c" sampleRecord (by rfl)

/-! ## Cache service (`app/services/cache_service.py`)

The Redis store is an association list of key, value and absolute expiry
instant; an entry is visible at time `t` exactly when `t < expiry`, so a
lapsed TTL equals absence.  Store-connectivity is a boolean passed to every
operation: when it is false the underlying client raises, the service's
`except` clause swallows the exception, and the operation reports failure
(`None`/`False`) with the store unchanged. -/

/-- A value stored in Redis: the lock sentinel string or a serialized
stream record (the JSON round-trip of the source is assumed faithful). -/
inductive RVal
  | str (s : String)
  | data (d : StreamData)
deriving DecidableEq, Repr

/-- A Redis key.  The source uses the two disjoint literal-prefixed string
families `"stream:" + channel` and `"lock:" + channel`; since each family is
an injective image of the channel name and the two never collide, they are
modelled as the two constructors of one key type. -/
inductive RKey
  | stream (channel : String)
  | lock (channel : String)
deriving DecidableEq, Repr

/-- The shared Redis keyspace. -/
abbrev Redis := List (RKey × RVal × Nat)

/-- Redis GET at time `t`: an entry whose TTL has lapsed is absent. -/
def rget (t : Nat) (k : RKey) : Redis → Option RVal
  | [] => none
  | e :: r => if e.1 = k then (if t < e.2.2 then some e.2.1 else none) else rget t k r

/-- Redis DEL. -/
def rdel (k : RKey) : Redis → Redis
  | [] => []
  | e :: r => if e.1 = k then rdel k r else e :: rdel k r

/-- Redis SETEX at time `t`: unconditional upsert with TTL `ttl`. -/
def rsetex (k : RKey) (v : RVal) (ttl t : Nat) (r : Redis) : Redis :=
  (k, v, t + ttl) :: rdel k r

/-- Redis SET with NX and EX at time `t`: atomic create-if-absent with
expiry; the boolean reports whether this call created the entry. -/
def rsetnxex (k : RKey) (v : RVal) (ttl t : Nat) (r : Redis) : Bool × Redis :=
  match rget t k r with
  | some _ => (false, r)
  | none => (true, rsetex k v ttl t r)

/-- The configured `CACHE_TTL` default (seconds): 6 hours. -/
def CACHE_TTL : Nat := 21600

/-- Python `ttl_seconds or settings.CACHE_TTL`: `None` and `0` are falsy. -/
def pyOrNat (o : Option Nat) (dflt : Nat) : Nat :=
  match o with
  | none => dflt
  | some 0 => dflt
  | some n => n

/-- The `stream:` key of a channel. -/
def streamKey (channel : String) : RKey := RKey.stream channel

/-- The `lock:` key of a channel. -/
def lockKey (channel : String) : RKey := RKey.lock channel

namespace CacheService

/-- Embeds `CacheService.get_stream_url`: read and deserialize the cached record;
a connectivity error is caught and reported as `None`. -/
def get_stream_url (conn : Bool) (t : Nat) (channel : String) (r : Redis) :
    Option StreamData :=
  if conn then
    match rget t (streamKey channel) r with
    | some (.data d) => some d
    | _ => none
  else none

/-- Embeds `CacheService.set_stream_url`: SETEX of the serialized record with
`ttl_seconds or CACHE_TTL`; a connectivity error is caught and reported as
`False` with the store unchanged. -/
def set_stream_url (conn : Bool) (t : Nat) (channel : String) (d : StreamData)
    (ttl_seconds : Option Nat) (r : Redis) : Bool × Redis :=
  if conn then
    (true, rsetex (streamKey channel) (.data d) (pyOrNat ttl_seconds CACHE_TTL) t r)
  else (false, r)

/-- Embeds `CacheService.invalidate`: unconditional DEL of the stream key. -/
def invalidate (conn : Bool) (channel : String) (r : Redis) : Bool × Redis :=
  if conn then (true, rdel (streamKey channel) r) else (false, r)

/-- Embeds `CacheService.acquire_lock`: SET NX EX on the lock key with expiry
`timeout` (default 30 at every call site); reports whether this call
created the lock. -/
def acquire_lock (conn : Bool) (t : Nat) (channel : String) (timeout : Nat)
    (r : Redis) : Bool × Redis :=
  if conn then rsetnxex (lockKey channel) (.str "1") timeout t r else (false, r)

/-- Embeds `CacheService.release_lock`: unconditional DEL of the lock key; a
connectivity error is caught and reported as `False`. -/
def release_lock (conn : Bool) (channel : String) (r : Redis) : Bool × Redis :=
  if conn then (true, rdel (lockKey channel) r) else (false, r)

end CacheService

theorem rget_rdel_self (t : Nat) (k : RKey) (r : Redis) :
    rget t k (rdel k r) = none := by
  induction r with
  | nil => rfl
  | cons e r ih =>
    by_cases he : e.1 = k <;> simp [rdel, rget, he, ih]

theorem rget_rdel_ne (t : Nat) (k k2 : RKey) (r : Redis) (h : k ≠ k2) :
    rget t k (rdel k2 r) = rget t k r := by
  induction r with
  | nil => rfl
  | cons e r ih =>
    by_cases he : e.1 = k2
    · have hek : ¬ e.1 = k := by rw [he]; exact fun hk => h hk.symm
      have hne : ¬ k2 = k := fun hk => h hk.symm
      simp [rdel, rget, he, hek, hne, ih]
    · simp only [rdel, he, if_false]
      by_cases hk : e.1 = k <;> simp [rget, hk, ih]

theorem rdel_rdel (k : RKey) (r : Redis) :
    rdel k (rdel k r) = rdel k r := by
  induction r with
  | nil => rfl
  | cons e r ih =>
    by_cases he : e.1 = k <;> simp [rdel, he, ih]

theorem rget_rsetex_self (t2 t ttl : Nat) (k : RKey) (v : RVal) (r : Redis) :
    rget t2 k (rsetex k v ttl t r) = if t2 < t + ttl then some v else none := by
  simp [rsetex, rget]

theorem rget_rsetex_ne (t2 t ttl : Nat) (k k2 : RKey) (v : RVal) (r : Redis)
    (h : k2 ≠ k) :
    rget t2 k2 (rsetex k v ttl t r) = rget t2 k2 r := by
  have : ¬ k = k2 := fun hk => h hk.symm
  simp [rsetex, rget, this, rget_rdel_ne t2 k2 k r h]

theorem streamKey_ne_lockKey (ch ch2 : String) : streamKey ch ≠ lockKey ch2 := by
  simp [streamKey, lockKey]

/-- C6: on one key, two successive `tryAcquireLock` calls return `true`
then `false` (the second within the first lock's lifetime); after
`releaseLock` a later `tryAcquireLock` returns `true` again; and
`releaseLock` is idempotent and safe — it succeeds on any store, held,
expired or never held. -/
theorem lock_protocol_roundtrip (ch : String) (t1 t2 timeout : Nat) (r0 : Redis)
    (hfree : rget t1 (lockKey ch) r0 = none)
    (h12 : t2 < t1 + timeout) :
    (CacheService.acquire_lock true t1 ch timeout r0).1 = true ∧
    (CacheService.acquire_lock true t2 ch timeout
        (CacheService.acquire_lock true t1 ch timeout r0).2).1 = false ∧
    (∀ t3, (CacheService.acquire_lock true t3 ch timeout
        (CacheService.release_lock true ch
          (CacheService.acquire_lock true t1 ch timeout r0).2).2).1 = true) ∧
    (∀ r : Redis, (CacheService.release_lock true ch r).1 = true ∧
        CacheService.release_lock true ch (CacheService.release_lock true ch r).2 =
          CacheService.release_lock true ch r) := by
  refine ⟨?_, ?_, ?_, ?_⟩
  · simp [CacheService.acquire_lock, rsetnxex, hfree]
  · simp [CacheService.acquire_lock, rsetnxex, hfree, rget_rsetex_self, h12]
  · intro t3
    simp [CacheService.acquire_lock, CacheService.release_lock, rsetnxex, hfree,
      rsetex, rget_rdel_self]
  · intro r
    refine ⟨rfl, ?_⟩
    simp [CacheService.release_lock, rdel_rdel]

/-- Witness for C6 on the empty store with the default 30-second timeout. -/
theorem lock_protocol_roundtrip_witness :
    (CacheService.acquire_lock true 0 "c" 30 []).1 = true ∧
    (CacheService.acquire_lock true 1 "c" 30
        (CacheService.acquire_lock true 0 "c" 30 []).2).1 = false ∧
    (∀ t3, (CacheService.acquire_lock true t3 "c" 30
        (CacheService.release_lock true "c"
          (CacheService.acquire_lock true 0 "c" 30 []).2).2).1 = true) ∧
    (∀ r : Redis, (CacheService.release_lock true "c" r).1 = true ∧
        CacheService.release_lock true "c" (CacheService.release_lock true "c" r).2 =
          CacheService.release_lock true "c" r) :=
  lock_protocol_roundtrip "c" 0 1 30 [] rfl (by omega)

/-! ## Stream resolver (`app/services/stream_resolver.py`, `get_stream_url`)

One call is modelled against an explicit Redis store and a context of
oracles: the store connectivity, the call's start time, the outcome of
`ytdlp_service.extract_stream_url` (which absorbs its own exceptions and
returns an optional record), the wall time the extraction takes, and the
writes other resolver instances perform during this call's single
suspension before the cache re-check (`asyncio.sleep(2)`).

The call is split at that suspension into two phases so that interleavings
of several callers can be expressed: phase 1 covers the cache probe, the
staleness eviction and the lock attempt (with backoff re-check); phase 2
covers the `try`/`finally` block around extraction. -/

/-- Oracles of one `get_stream_url` call. -/
structure ResolveCtx where
  conn : Bool
  t0 : Nat
  extract : String → Option StreamData
  dt_extract : Nat
  interf : Redis → Redis

/-- Outcome of phase 1: an early return with a URL (or `None`) and the
store as left behind, or fall-through to the extraction block, recording
whether the lock was acquired and whether the 2-second backoff was taken. -/
inductive Phase1Out
  | ret (url : Option String) (r : Redis)
  | go (r : Redis) (locked : Bool) (slept : Bool)
deriving DecidableEq, Repr

/-- Outcome of a whole call: the returned optional URL, the final store,
and whether this call invoked the extractor. -/
structure ResolveOut where
  result : Option String
  store : Redis
  calledExtract : Bool
deriving DecidableEq, Repr

/-- Embeds `_is_expired`: `datetime.utcnow() >= expires_at`. -/
def is_expired (t : Nat) (d : StreamData) : Bool :=
  decide (d.expires_at ≤ t)

namespace StreamResolver

/-- The lock step of `get_stream_url`: `acquire_lock` (timeout 30); on
failure, sleep 2 seconds (during which other instances may write), then
re-check the cache once and return the cached URL when now present —
without any expiry check and without releasing the lock.  Otherwise fall
through to extraction. -/
def resolveLock (ctx : ResolveCtx) (channel_name : String) (r1 : Redis) :
    Phase1Out :=
  let acq := CacheService.acquire_lock ctx.conn ctx.t0 channel_name 30 r1
  if acq.1 then .go acq.2 true false
  else
    let r3 := ctx.interf acq.2
    match CacheService.get_stream_url ctx.conn (ctx.t0 + 2) channel_name r3 with
    | some d => .ret (some d.url) r3
    | none => .go r3 false true

/-- Phase 1 of `get_stream_url`: when `use_cache`, probe the cache; a fresh
hit returns its URL; a stale hit is explicitly invalidated before falling
through to the lock step. -/
def resolveP1 (ctx : ResolveCtx) (channel_name : String) (use_cache : Bool)
    (r0 : Redis) : Phase1Out :=
  if use_cache then
    match CacheService.get_stream_url ctx.conn ctx.t0 channel_name r0 with
    | some d =>
      if is_expired ctx.t0 d then
        resolveLock ctx channel_name (CacheService.invalidate ctx.conn channel_name r0).2
      else .ret (some d.url) r0
    | none => resolveLock ctx channel_name r0
  else resolveLock ctx channel_name r0

/-- Phase 2 of `get_stream_url`, the `try`/`finally` block: extract; on a
record, `set_stream_url` (default TTL) and return its URL; on `None`
return `None`; in the `finally`, `release_lock` runs unconditionally —
whether or not this call acquired the lock. -/
def resolveP2 (ctx : ResolveCtx) (channel_url channel_name : String)
    (slept : Bool) (r : Redis) : ResolveOut :=
  let tSet := ctx.t0 + (if slept then 2 else 0) + ctx.dt_extract
  match ctx.extract channel_url with
  | some d =>
    let r4 := (CacheService.set_stream_url ctx.conn tSet channel_name d none r).2
    let r5 := (CacheService.release_lock ctx.conn channel_name r4).2
    ⟨some d.url, r5, true⟩
  | none =>
    let r5 := (CacheService.release_lock ctx.conn channel_name r).2
    ⟨none, r5, true⟩

/-- Embeds `StreamResolverService.get_stream_url`, assembled from the phases. -/
def get_stream_url (ctx : ResolveCtx) (channel_url channel_name : String)
    (use_cache : Bool) (r0 : Redis) : ResolveOut :=
  match resolveP1 ctx channel_name use_cache r0 with
  | .ret u r => ⟨u, r, false⟩
  | .go r _ slept => resolveP2 ctx channel_url channel_name slept r

end StreamResolver

theorem lockKey_ne_streamKey (ch ch2 : String) : lockKey ch ≠ streamKey ch2 := by
  simp [streamKey, lockKey]

/-- C2: a cached record whose `expires_at` is in the past is treated as a
miss: `get_stream_url` never returns its stale URL from the hit path, it
explicitly invalidates the entry (a subsequent read misses), proceeds to
re-extraction, and the returned URL is exactly the fresh extraction's URL
(or `None` when extraction fails, in which case no stream entry remains).
Stated for a call with the store reachable, the lock free and no concurrent
writers. -/
theorem expired_cache_entry_forces_fresh_extraction
    (ctx : ResolveCtx) (cu ch : String) (r0 : Redis) (d : StreamData)
    (hconn : ctx.conn = true)
    (hcache : CacheService.get_stream_url true ctx.t0 ch r0 = some d)
    (hexp : is_expired ctx.t0 d = true)
    (hlock : rget ctx.t0 (lockKey ch) r0 = none) :
    (StreamResolver.get_stream_url ctx cu ch true r0).result
        = (ctx.extract cu).map (fun s => s.url) ∧
    (StreamResolver.get_stream_url ctx cu ch true r0).calledExtract = true ∧
    (ctx.extract cu = none →
      ∀ t, rget t (streamKey ch)
        (StreamResolver.get_stream_url ctx cu ch true r0).store = none) := by
  have hlock1 : rget ctx.t0 (lockKey ch) (rdel (streamKey ch) r0) = none := by
    rw [rget_rdel_ne _ _ _ _ (lockKey_ne_streamKey ch ch)]
    exact hlock
  simp only [StreamResolver.get_stream_url, StreamResolver.resolveP1,
    StreamResolver.resolveLock, StreamResolver.resolveP2,
    CacheService.invalidate, CacheService.acquire_lock, CacheService.release_lock,
    CacheService.set_stream_url, hconn, hcache, hexp, if_true, rsetnxex, hlock1]
  cases hext : ctx.extract cu with
  | some e => simp [hext]
  | none =>
    refine ⟨rfl, rfl, fun _ t => ?_⟩
    show rget t (streamKey ch)
        (rdel (lockKey ch)
          (rsetex (lockKey ch) (RVal.str "1") 30 ctx.t0 (rdel (streamKey ch) r0))) = none
    rw [rget_rdel_ne _ _ _ _ (streamKey_ne_lockKey ch ch)]
    rw [rget_rsetex_ne _ _ _ _ _ _ _ (streamKey_ne_lockKey ch ch)]
    exact rget_rdel_self t (streamKey ch) r0

/-- Stale record used to witness C2: its `expires_at` (50) is before the
call's start time (100), while its Redis TTL has not lapsed. -/
def staleRecordC2 : StreamData :=
  ⟨"https://old/a.m3u8", "best", "hls", 50, "https", "u", 0⟩

/-- Fresh record returned by the extraction oracle in the C2 witness. -/
def freshRecordC2 : StreamData :=
  ⟨"https://new/b.m3u8", "best", "hls", 3700, "https", "u", 100⟩

/-- Call context of the C2 witness. -/
def ctxC2 : ResolveCtx := ⟨true, 100, fun _ => some freshRecordC2, 5, fun r => r⟩

/-- Store of the C2 witness: the stale record is physically present. -/
def storeC2 : Redis := [(streamKey "c", RVal.data staleRecordC2, 1000)]

/-- Witness for C2 at a concrete expired entry. -/
theorem expired_cache_entry_forces_fresh_extraction_witness :
    CacheService.get_stream_url true ctxC2.t0 "c" storeC2 = some staleRecordC2 ∧
    is_expired ctxC2.t0 staleRecordC2 = true ∧
    ((StreamResolver.get_stream_url ctxC2 "u" "c" true storeC2).result
        = (ctxC2.extract "u").map (fun s => s.url) ∧
      (StreamResolver.get_stream_url ctxC2 "u" "c" true storeC2).calledExtract = true ∧
      (ctxC2.extract "u" = none →
        ∀ t, rget t (streamKey "c")
          (StreamResolver.get_stream_url ctxC2 "u" "c" true storeC2).store = none)) :=
  ⟨rfl, rfl,
    expired_cache_entry_forces_fresh_extraction ctxC2 "u" "c" storeC2 staleRecordC2
      rfl rfl rfl rfl⟩

/-- C9: when the lock cannot be acquired (another instance holds a live
lock entry), the resolver sleeps the fixed 2-second backoff, re-checks the
cache exactly once at `t0 + 2`, returns the now-present URL without
extracting; when the re-check still misses, it proceeds to its own
extraction attempt rather than returning absent or waiting again — a
bounded single retry. -/
theorem lock_backoff_single_retry
    (ctx : ResolveCtx) (cu ch : String) (r0 : Redis) (v : RVal)
    (hconn : ctx.conn = true)
    (hmiss : CacheService.get_stream_url true ctx.t0 ch r0 = none)
    (hheld : rget ctx.t0 (lockKey ch) r0 = some v) :
    (∀ d, CacheService.get_stream_url true (ctx.t0 + 2) ch (ctx.interf r0) = some d →
        (StreamResolver.get_stream_url ctx cu ch true r0).result = some d.url ∧
        (StreamResolver.get_stream_url ctx cu ch true r0).calledExtract = false) ∧
    (CacheService.get_stream_url true (ctx.t0 + 2) ch (ctx.interf r0) = none →
        (StreamResolver.get_stream_url ctx cu ch true r0).calledExtract = true ∧
        (StreamResolver.get_stream_url ctx cu ch true r0).result
          = (ctx.extract cu).map (fun s => s.url)) := by
  simp only [StreamResolver.get_stream_url, StreamResolver.resolveP1,
    StreamResolver.resolveLock, CacheService.acquire_lock, hconn, hmiss,
    rsetnxex, hheld, if_true]
  cases hrc : CacheService.get_stream_url true (ctx.t0 + 2) ch (ctx.interf r0) with
  | some e =>
    refine ⟨fun d hd => ?_, fun hn => ?_⟩
    · cases hd
      exact ⟨rfl, rfl⟩
    · cases hn
  | none =>
    refine ⟨fun d hd => ?_, fun _ => ?_⟩
    · cases hd
    · simp only [StreamResolver.resolveP2]
      cases hx : ctx.extract cu <;> simp [hx]

/-- Lock-held store of the C9 witness. -/
def storeC9 : Redis := [(lockKey "c", RVal.str "1", 30)]

/-- Call context of the C9 witness. -/
def ctxC9 : ResolveCtx :=
  ⟨true, 0, fun _ => some ⟨"https://c9/s.m3u8", "best", "hls", 3600, "https", "u", 0⟩,
    5, fun r => r⟩

/-- Witness for C9: lock held by another caller, cache still empty after
the backoff — the call performs its own extraction. -/
theorem lock_backoff_single_retry_witness :
    CacheService.get_stream_url true ctxC9.t0 "c" storeC9 = none ∧
    rget ctxC9.t0 (lockKey "c") storeC9 = some (RVal.str "1") ∧
    ((StreamResolver.get_stream_url ctxC9 "u" "c" true storeC9).calledExtract = true ∧
      (StreamResolver.get_stream_url ctxC9 "u" "c" true storeC9).result
        = (ctxC9.extract "u").map (fun s => s.url)) :=
  ⟨rfl, rfl,
    (lock_backoff_single_retry ctxC9 "u" "c" storeC9 (RVal.str "1")
      rfl rfl rfl).2 rfl⟩

/-- C10 (implicit): every call that reaches the extraction block deletes
the lock key in its `finally`, whether or not it acquired the lock — so a
caller that lost the lock race and fell through to its own extraction
removes a lock held by another resolver on exit. -/
theorem lock_released_whenever_extracting
    (ctx : ResolveCtx) (cu ch : String) (use_cache : Bool) (r0 : Redis)
    (hconn : ctx.conn = true)
    (hext : (StreamResolver.get_stream_url ctx cu ch use_cache r0).calledExtract = true) :
    ∀ t, rget t (lockKey ch)
        (StreamResolver.get_stream_url ctx cu ch use_cache r0).store = none := by
  intro t
  unfold StreamResolver.get_stream_url at hext ⊢
  cases hp : StreamResolver.resolveP1 ctx ch use_cache r0 with
  | ret u r => rw [hp] at hext; simp at hext
  | go r locked slept =>
    unfold StreamResolver.resolveP2
    cases hx : ctx.extract cu with
    | some d =>
      simp only [CacheService.release_lock, CacheService.set_stream_url, hconn, if_true]
      exact rget_rdel_self t (lockKey ch) _
    | none =>
      simp only [CacheService.release_lock, hconn, if_true]
      exact rget_rdel_self t (lockKey ch) _

/-- Call context of the C10 witness. -/
def ctxC10 : ResolveCtx :=
  ⟨true, 0, fun _ => some ⟨"https://c10/s.m3u8", "best", "hls", 3600, "https", "u", 0⟩,
    5, fun r => r⟩

/-- Lock-held store of the C10 witness: the lock belongs to another
resolver, yet this call's exit deletes it. -/
def storeC10 : Redis := [(lockKey "c", RVal.str "1", 30)]

/-- Witness for C10: a caller that lost the lock race extracts and still
deletes the other resolver's lock. -/
theorem lock_released_whenever_extracting_witness :
    (StreamResolver.get_stream_url ctxC10 "u" "c" true storeC10).calledExtract = true ∧
    rget 0 (lockKey "c")
      (StreamResolver.get_stream_url ctxC10 "u" "c" true storeC10).store = none :=
  ⟨rfl, lock_released_whenever_extracting ctxC10 "u" "c" true storeC10 rfl rfl 0⟩

/-- C7: with the store unreachable, every cache operation reports failure
(`None`/`False`) with the store unchanged instead of raising, and the
resolver still falls through to direct extraction and returns the freshly
extracted URL. -/
theorem cache_degrades_gracefully
    (t : Nat) (ch cu : String) (d : StreamData) (tt : Option Nat) (r : Redis)
    (ctx : ResolveCtx) (hconn : ctx.conn = false) :
    CacheService.get_stream_url false t ch r = none ∧
    CacheService.set_stream_url false t ch d tt r = (false, r) ∧
    CacheService.acquire_lock false t ch 30 r = (false, r) ∧
    CacheService.release_lock false ch r = (false, r) ∧
    CacheService.invalidate false ch r = (false, r) ∧
    (StreamResolver.get_stream_url ctx cu ch true r).result
      = (ctx.extract cu).map (fun s => s.url) := by
  refine ⟨rfl, rfl, rfl, rfl, rfl, ?_⟩
  simp only [StreamResolver.get_stream_url, StreamResolver.resolveP1,
    StreamResolver.resolveLock, CacheService.get_stream_url,
    CacheService.acquire_lock, hconn, if_false, Bool.false_eq_true]
  cases hx : ctx.extract cu <;>
    simp [StreamResolver.resolveP2, CacheService.release_lock, hconn, hx]

/-- Call context of the C7 witness: store down, extraction succeeds. -/
def ctxC7 : ResolveCtx :=
  ⟨false, 0, fun _ => some ⟨"https://c7/s.m3u8", "best", "hls", 3600, "https", "u", 0⟩,
    5, fun r => r⟩

/-- Witness for C7 on the empty store. -/
theorem cache_degrades_gracefully_witness :
    CacheService.get_stream_url false 0 "c" [] = none ∧
    CacheService.set_stream_url false 0 "c" staleRecordC2 none [] = (false, []) ∧
    CacheService.acquire_lock false 0 "c" 30 [] = (false, []) ∧
    CacheService.release_lock false "c" [] = (false, []) ∧
    CacheService.invalidate false "c" [] = (false, []) ∧
    (StreamResolver.get_stream_url ctxC7 "u" "c" true []).result
      = (ctxC7.extract "u").map (fun s => s.url) :=
  cache_degrades_gracefully 0 "c" "u" staleRecordC2 none [] ctxC7 rfl

/-! ## Single-flight under contention (C1)

Two concurrent callers are expressed by interleaving the two phases: A runs
phase 1 on the shared store and begins extracting; B runs its whole call on
the store A left behind (A's extraction outlasts B's 2-second backoff, so
B's re-check still misses); A then finishes phase 2. -/

/-- Extraction oracle result of caller A in the C1 scenario. -/
def freshA : StreamData := ⟨"https://a/s.m3u8", "best", "hls", 4000, "https", "u", 0⟩

/-- Extraction oracle result of caller B in the C1 scenario. -/
def freshB : StreamData := ⟨"https://b/s.m3u8", "best", "hls", 4000, "https", "u", 0⟩

/-- Caller A's context in the C1 scenario: its extraction takes 5 seconds. -/
def ctxA : ResolveCtx := ⟨true, 0, fun _ => some freshA, 5, fun r => r⟩

/-- Caller B's context in the C1 scenario: during its 2-second backoff A is
still extracting, so no concurrent write lands. -/
def ctxB : ResolveCtx := ⟨true, 0, fun _ => some freshB, 5, fun r => r⟩

/-- The store after A's phase 1: A's lock entry, nothing else. -/
def storeAfterA1 : Redis := [(lockKey "ch", RVal.str "1", 30)]

/-- C1 counterexample: channel `ch` is absent from the cache; A's phase 1
acquires the lock; B, interleaved while A is still extracting, fails the
lock, re-checks an empty cache after its backoff and performs its own
extraction; A's phase 2 also extracts.  Two concurrent callers therefore
trigger two extraction calls, not exactly one. -/
theorem lock_contention_duplicate_extraction :
    rget 0 (streamKey "ch") ([] : Redis) = none ∧
    StreamResolver.resolveP1 ctxA "ch" true [] = .go storeAfterA1 true false ∧
    (StreamResolver.get_stream_url ctxB "u" "ch" true storeAfterA1).calledExtract
      = true ∧
    (StreamResolver.resolveP2 ctxA "u" "ch" false storeAfterA1).calledExtract
      = true := by
  refine ⟨rfl, rfl, rfl, rfl⟩

/-- Helper for the amended C1: while a live lock entry exists, the lock
step never reports acquisition. -/
theorem resolveLock_not_acquired
    (ctx : ResolveCtx) (ch : String) (r1 : Redis) (v : RVal)
    (hconn : ctx.conn = true)
    (hheld : rget ctx.t0 (lockKey ch) r1 = some v) :
    ∀ r b s, StreamResolver.resolveLock ctx ch r1 = .go r b s → b = false := by
  intro r b s h
  simp only [StreamResolver.resolveLock, CacheService.acquire_lock, hconn,
    rsetnxex, hheld, if_true] at h
  cases hrc : CacheService.get_stream_url true (ctx.t0 + 2) ch (ctx.interf r1) with
  | some e => rw [hrc] at h; cases h
  | none => rw [hrc] at h; cases h; rfl

/-- C1 amended: extraction *under the lock* is single-flight — while
another caller's live lock entry exists, no call's phase 1 can acquire it,
on any path (fresh hit, stale hit with eviction, miss, or cache bypass);
but a losing caller is not prevented from falling through to its own
extraction (see the counterexample), so duplicate extraction is bounded,
not eliminated. -/
theorem lock_single_acquirer
    (ctx : ResolveCtx) (ch : String) (use_cache : Bool) (r0 : Redis) (v : RVal)
    (hconn : ctx.conn = true)
    (hheld : rget ctx.t0 (lockKey ch) r0 = some v) :
    ∀ r b s, StreamResolver.resolveP1 ctx ch use_cache r0 = .go r b s →
      b = false := by
  intro r b s h
  unfold StreamResolver.resolveP1 at h
  split at h
  · split at h
    · split at h
      · have hheld1 : rget ctx.t0 (lockKey ch)
            (CacheService.invalidate ctx.conn ch r0).2 = some v := by
          simp only [CacheService.invalidate, hconn, if_true]
          rw [rget_rdel_ne _ _ _ _ (lockKey_ne_streamKey ch ch)]
          exact hheld
        exact resolveLock_not_acquired ctx ch _ v hconn hheld1 r b s h
      · exact Phase1Out.noConfusion h
    · exact resolveLock_not_acquired ctx ch r0 v hconn hheld r b s h
  · exact resolveLock_not_acquired ctx ch r0 v hconn hheld r b s h

/-- Witness for the amended C1: B's phase 1 on the store holding A's lock
falls through unlocked. -/
theorem lock_single_acquirer_witness :
    rget ctxB.t0 (lockKey "ch") storeAfterA1 = some (RVal.str "1") ∧
    StreamResolver.resolveP1 ctxB "ch" true storeAfterA1
      = .go storeAfterA1 false true ∧
    false = false :=
  ⟨rfl, rfl,
    lock_single_acquirer ctxB "ch" true storeAfterA1 (RVal.str "1") rfl rfl
      storeAfterA1 false true rfl⟩

/-! ## Channel validator (`app/services/channel_validator.py`)

`ytdlp_service.extract_stream_url` absorbs its own exceptions and returns
an optional record, but `validate_channel` also guards against a timeout or
any other exception escaping the await, so the per-item oracle carries all
three shapes.  `validate_channels_async` collects results in completion
order; the model uses program order, which preserves multiset, length and
per-item classification. -/

/-- Result record of one channel validation. -/
structure ChannelValidationResult where
  url : String
  status : String
  error_message : Option String
  validated_at : String
deriving DecidableEq, Repr

/-- Outcome of awaiting `extract_stream_url` inside `validate_channel`. -/
inductive ExtractOutcome
  | result (d : Option StreamData)
  | timeoutExn
  | exn (msg : String)
deriving DecidableEq, Repr

/-- The markers `validate_channel` greps the error text for to classify a
failure as a truly invalid channel. -/
def invalidKeywords : List String :=
  ["not found", "unavailable", "not available", "no such file",
    "does not exist", "404", "channel not found"]

/-- The `any(keyword in error_msg.lower() for keyword in [...])` test. -/
def keywordMatch (msg : String) : Bool :=
  invalidKeywords.any (fun k => containsSub msg.toLower k)

/-- Embeds `ChannelValidator.validate_channel` given the extraction outcome, the
channel URL and the current timestamp string: a record with a truthy `url`
is `valid`; a missing record or empty URL is `invalid`; a timeout is an
`error`; any other exception is classified by `keywordMatch` with the
message truncated to 100 characters. -/
def validate_channel (out : ExtractOutcome) (url now : String) :
    ChannelValidationResult :=
  match out with
  | .result (some d) =>
    if d.url = "" then ⟨url, "invalid", some "无法获取直播流", now⟩
    else ⟨url, "valid", none, now⟩
  | .result none => ⟨url, "invalid", some "无法获取直播流", now⟩
  | .timeoutExn => ⟨url, "error", some "验证超时", now⟩
  | .exn msg =>
    ⟨url, if keywordMatch msg then "invalid" else "error",
      some (msg.take 100), now⟩

/-- One input item of `validate_channels_async`: `channel.get('url', '')`
collapses a missing `url` field to the empty string. -/
structure ChannelDict where
  url : String
deriving DecidableEq, Repr

/-- Embeds `ChannelValidator.validate_channels_async`: a validation task is
launched only for items whose `url` is truthy (`if url:`), then every task
resolves to exactly one result. -/
def validate_channels_async (oracle : String → ExtractOutcome) (now : String)
    (channels : List ChannelDict) : List ChannelValidationResult :=
  (channels.filterMap (fun c => if c.url = "" then none else some c.url)).map
    (fun u => validate_channel (oracle u) u now)

/-- C3 counterexample: an input list of length 1 whose single item has an
empty (or missing) `url` produces 0 results, not 1 — items with a falsy
`url` are silently dropped before any task is launched. -/
theorem validateMany_drops_empty_url :
    (validate_channels_async (fun _ => ExtractOutcome.result none) "t"
        [⟨""⟩]).length = 0 ∧
    ¬ (validate_channels_async (fun _ => ExtractOutcome.result none) "t"
        [⟨""⟩]).length = 1 := by
  refine ⟨rfl, ?_⟩
  intro h
  cases h

theorem validate_channel_status (out : ExtractOutcome) (url now : String) :
    (validate_channel out url now).status = "valid" ∨
    (validate_channel out url now).status = "invalid" ∨
    (validate_channel out url now).status = "error" := by
  cases out with
  | result d =>
    cases d with
    | none => right; left; rfl
    | some s =>
      by_cases hs : s.url = ""
      · right; left; simp [validate_channel, hs]
      · left; simp [validate_channel, hs]
  | timeoutExn => right; right; rfl
  | exn msg =>
    by_cases hk : keywordMatch msg = true
    · right; left; simp [validate_channel, hk]
    · right; right; simp [validate_channel, hk]

/-- C3 amended: `validate_channels_async` returns exactly one result per
input item whose `url` is non-empty (items with an empty or missing `url`
are dropped, so the output length can be below the input length); every
result's status is `valid`, `invalid` or `error`; and no per-item failure
escapes — every launched item resolves to a result. -/
theorem validateMany_length_and_status
    (oracle : String → ExtractOutcome) (now : String)
    (channels : List ChannelDict) :
    (validate_channels_async oracle now channels).length
      = (channels.filter (fun c => !(c.url = "" : Bool))).length ∧
    ∀ res ∈ validate_channels_async oracle now channels,
      res.status = "valid" ∨ res.status = "invalid" ∨ res.status = "error" := by
  constructor
  · simp only [validate_channels_async, List.length_map]
    induction channels with
    | nil => rfl
    | cons c cs ih =>
      by_cases hc : c.url = "" <;>
        simp [List.filterMap, List.filter, hc, ih]
  · intro res hres
    simp only [validate_channels_async, List.mem_map] at hres
    obtain ⟨u, _, hu⟩ := hres
    rw [← hu]
    exact validate_channel_status (oracle u) u now

/-- Witness for the amended C3 on a two-item list with one empty `url`:
one result, with a legal status. -/
theorem validateMany_length_and_status_witness :
    (validate_channels_async (fun _ => ExtractOutcome.result none) "t"
        [⟨"https://yt/a"⟩, ⟨""⟩]).length
      = ([⟨"https://yt/a"⟩, ⟨""⟩].filter
          (fun (c : ChannelDict) => !(c.url = "" : Bool))).length ∧
    ((validate_channel (ExtractOutcome.result none) "https://yt/a" "t").status
        = "valid" ∨
      (validate_channel (ExtractOutcome.result none) "https://yt/a" "t").status
        = "invalid" ∨
      (validate_channel (ExtractOutcome.result none) "https://yt/a" "t").status
        = "error") :=
  ⟨(validateMany_length_and_status (fun _ => ExtractOutcome.result none) "t"
      [⟨"https://yt/a"⟩, ⟨""⟩]).1,
    (validateMany_length_and_status (fun _ => ExtractOutcome.result none) "t"
      [⟨"https://yt/a"⟩, ⟨""⟩]).2
      (validate_channel (ExtractOutcome.result none) "https://yt/a" "t")
      (by simp [validate_channels_async])⟩

/-! ## Batch resolution with deadline (`stream_resolver.py`,
`batch_get_streams`)

`asyncio.wait_for(asyncio.gather(*tasks, return_exceptions=True), timeout)`
raises `TimeoutError` exactly when a timeout value was given and some task
has not completed by the deadline; the `except` branch then returns the
empty dict.  Only when every task completes in time does the zip with
exception filtering run.  Each task's eventual result and whether it
completed before the deadline are oracles. -/

/-- Eventual outcome of one `get_stream_url` task inside the gather:
a returned optional URL, or an exception collected by
`return_exceptions=True`. -/
inductive TaskOutcome
  | ok (r : Option String)
  | exn
deriving DecidableEq, Repr

/-- One input channel of the batch: its name and URL. -/
structure BatchChannel where
  name : String
  url : String
deriving DecidableEq, Repr

/-- Oracles of one `batch_get_streams` call. -/
structure BatchEnv where
  outcome : String → TaskOutcome
  done : String → Bool
  hasDeadline : Bool

/-- Whether the `asyncio.wait_for` deadline fires: a timeout value was
given and some task is still incomplete at the deadline. -/
def batch_timed_out (env : BatchEnv) (channels : List BatchChannel) : Bool :=
  env.hasDeadline && channels.any (fun c => !(env.done c.name))

/-- Embeds `StreamResolverService.batch_get_streams`: on `TimeoutError` return the
empty dict; otherwise zip the channels with their results, dropping
exception results. -/
def batch_get_streams (env : BatchEnv) (channels : List BatchChannel) :
    List (String × Option String) :=
  if batch_timed_out env channels then []
  else
    channels.filterMap (fun c =>
      match env.outcome c.name with
      | .ok r => some (c.name, r)
      | .exn => none)

/-- Modelled from the spec, for comparison with `batch_get_streams`: the
claim's behaviour — return exactly the per-channel results that completed
before the deadline, discarding the rest. -/
def spec_completedSubset (env : BatchEnv) (channels : List BatchChannel) :
    List (String × Option String) :=
  channels.filterMap (fun c =>
    if env.done c.name then
      match env.outcome c.name with
      | .ok r => some (c.name, r)
      | .exn => none
    else none)

/-- Batch environment of the C5 counterexample: channel `a` completed with
a URL before the deadline, channel `b` did not complete, and a timeout was
given. -/
def envC5 : BatchEnv :=
  ⟨fun n => if n = "a" then .ok (some "https://x/a.m3u8") else .ok none,
    fun n => n == "a", true⟩

/-- Channels of the C5 counterexample. -/
def channelsC5 : List BatchChannel := [⟨"a", "ua"⟩, ⟨"b", "ub"⟩]

/-- C5 counterexample: when the deadline elapses, `batch_get_streams`
returns the empty dict, not the subset that completed — channel `a`'s
finished result is discarded along with everything else. -/
theorem batch_timeout_discards_completed :
    batch_timed_out envC5 channelsC5 = true ∧
    batch_get_streams envC5 channelsC5 = [] ∧
    spec_completedSubset envC5 channelsC5 = [("a", some "https://x/a.m3u8")] ∧
    ¬ batch_get_streams envC5 channelsC5 = spec_completedSubset envC5 channelsC5 := by
  refine ⟨rfl, rfl, rfl, ?_⟩
  intro h
  simp [batch_get_streams, spec_completedSubset, envC5, channelsC5,
    batch_timed_out] at h

theorem length_filterMap_outcome (env : BatchEnv) (channels : List BatchChannel) :
    (channels.filterMap (fun c =>
        match env.outcome c.name with
        | .ok r => some (c.name, r)
        | .exn => none)).length
      = (channels.filter (fun c =>
          match env.outcome c.name with
          | .ok _ => true
          | .exn => false)).length := by
  induction channels with
  | nil => rfl
  | cons c cs ih =>
    cases hc : env.outcome c.name with
    | ok r => simp [List.filterMap, List.filter, hc, ih]
    | exn => simp [List.filterMap, List.filter, hc, ih]

/-- C5 amended: when the overall deadline elapses before every resolution
completes, `batch_get_streams` returns the empty map — completed results
are discarded together with the incomplete ones, and nothing is retried;
only when every resolution completes in time does it return one entry per
channel whose task did not end in an exception. -/
theorem batch_deadline_behavior (env : BatchEnv) (channels : List BatchChannel) :
    (batch_timed_out env channels = true →
      batch_get_streams env channels = []) ∧
    (batch_timed_out env channels = false →
      (batch_get_streams env channels).length
        = (channels.filter (fun c =>
            match env.outcome c.name with
            | .ok _ => true
            | .exn => false)).length) := by
  constructor
  · intro h
    simp [batch_get_streams, h]
  · intro h
    simp only [batch_get_streams, h, Bool.false_eq_true, if_false]
    exact length_filterMap_outcome env channels

/-- Witness for the amended C5: the timed-out branch at the concrete
counterexample environment. -/
theorem batch_deadline_behavior_witness :
    batch_timed_out envC5 channelsC5 = true ∧
    batch_get_streams envC5 channelsC5 = [] :=
  ⟨rfl, (batch_deadline_behavior envC5 channelsC5).1 rfl⟩

end Ytb
